import Mathlib

/-!
# Bootstrap sequencer of the ndm-operator (cmd/manager/main.go)

A shallow embedding of `main` and `performUpgrade`.  The external collaborators
(operator-sdk, controller-runtime, the setup and upgrade packages) are abstract:
a `World` fixes what each of them returns, and every call is recorded in a trace.
`os.Exit` ends the process at once, without running deferred calls; a normal
return of `main` runs the deferred calls and ends the process with status 0.
Two library calls can end the process by themselves: `flag.Parse`, whose flag set
exits on a command-line error or a help request, and the goroutine started by
`signals.SetupSignalHandler`, which exits with status 1 on a second signal.
-/

namespace NDM

/-! ## Values -/

/-- Go error values; a nil error is `none` in `Option Error`. -/
abbrev Error := String

/-- Nanosecond count, the representation of Go's time.Duration. -/
abbrev Duration := Int

def Nanosecond : Duration := 1
def Microsecond : Duration := 1000 * Nanosecond
def Millisecond : Duration := 1000 * Microsecond
def Second : Duration := 1000 * Millisecond

/-- ReconciliationInterval defines the triggering interval for reconciliation operation. -/
def ReconciliationInterval : Duration := 5 * Second

/-- Handle of a rest.Config as returned by config.GetConfig. -/
structure Config where
  id : Nat
deriving DecidableEq, Repr

/-- Handle of a manager.Manager as returned by manager.New. -/
structure Manager where
  id : Nat
deriving DecidableEq, Repr

/-- Handle of a client.Client as returned by client.New. -/
structure Client where
  id : Nat
deriving DecidableEq, Repr

/-- The fields of manager.Options that main sets; SyncPeriod is a pointer in Go. -/
structure Options where
  Namespace : String
  SyncPeriod : Option Duration
deriving DecidableEq, Repr

/-- The two packages whose NewUpgradeTask constructor performUpgrade calls. -/
inductive TaskPkg where
  | v040_041
  | v041_042
deriving DecidableEq, Repr

/-- Modelled from the spec: the UpgradeTask record (fromVersion, toVersion, apply over a
client); its Go type lives in pkg/upgrade/v040_041 and pkg/upgrade/v041_042, which are not
among the sources.  A task is identified by the constructor call that built it. -/
structure UpgradeTask where
  pkg : TaskPkg
  fromVersion : String
  toVersion : String
  client : Client
deriving DecidableEq, Repr

/-! ## Traces -/

/-- Calls to external collaborators, with the arguments main passes. -/
inductive Call where
  | flagParse
  | setLogger
  | getWatchNamespace
  | getConfig
  | leaderBecome (lockName : String)
  | newFileReady
  | readySet
  | readyUnset
  | managerNew (cfg : Config) (opts : Options)
  | newInstallSetup (cfg : Config)
  | install
  | getScheme (mgr : Manager)
  | addToScheme
  | clientNew (cfg : Config)
  | newUpgradeTask (pkg : TaskPkg) (fromVersion toVersion : String) (client : Client)
  | taskApply (task : UpgradeTask)
  | addToManager (mgr : Manager)
  | setupSignalHandler
  | mgrStart (mgr : Manager)
deriving DecidableEq, Repr

/-- What an execution does, in order.  A `call` is a collaborator call that has returned,
with the error it returned (`none` for nil, and for calls without an error result).
An `osExit` is a call of os.Exit made by main itself; `flagExit` is the os.Exit made
inside flag.Parse, and `signalExit` the os.Exit(1) made by the goroutine of the signal
handler when a second signal arrives. -/
inductive Event where
  | call (c : Call) (err : Option Error)
  | logInfo (msg : String)
  | logError (err : Error) (msg : String)
  | enterPerformUpgrade (client : Client)
  | leavePerformUpgrade (err : Option Error)
  | enterRunUpgrade (tasks : List UpgradeTask)
  | leaveRunUpgrade (err : Option Error)
  | osExit (code : Int)
  | flagExit (code : Int)
  | signalExit
deriving DecidableEq, Repr

/-- How flag.Parse ends.  The flag set flag.CommandLine is built with ExitOnError: on a
help request (-h, -help) Parse prints the usage and calls os.Exit(0), on any other
command-line error it calls os.Exit(2); Go releases before 1.15 exit with 2 on a help
request as well, which is the outcome `usageExit` here. -/
inductive FlagOutcome where
  | parsed
  | helpExit
  | usageExit
deriving DecidableEq, Repr

/-- What every collaborator returns in one execution.  Each collaborator is called at most
once per execution (a task's apply at most once per task), so a fixed answer per
collaborator covers every execution in which all calls return or end the process.
The field `secondSignal` is the one concurrent input: `some k` says that the second
shutdown signal reaches the handler's goroutine when the main goroutine has completed
`k` more events after signals.SetupSignalHandler returned; `none` says that no second
signal arrives while the process lives. -/
structure World where
  flagParse : FlagOutcome
  secondSignal : Option Nat
  goVersion : String
  goOS : String
  goArch : String
  sdkVersion : String
  getWatchNamespace : String × Option Error
  getConfig : Config × Option Error
  leaderBecome : Option Error
  readySet : Option Error
  readyUnset : Option Error
  managerNew : Manager × Option Error
  newInstallSetup : Option Error
  install : Option Error
  addToScheme : Option Error
  clientNew : Client × Option Error
  applyTask : UpgradeTask → Option Error
  addToManager : Option Error
  mgrStart : Option Error

/-! ## The execution monad: emitted events, pending deferred calls, process exit -/

/-- Deferred calls that main registers. -/
inductive Deferred where
  | readyUnset
deriving DecidableEq, Repr

/-- Result of running a piece of Go code: it returns a value and leaves a list of
pending deferred calls, or the process has exited; either way it has emitted events. -/
inductive Res (α : Type) where
  | ret (a : α) (defers : List Deferred) (events : List Event)
  | exit (code : Int) (events : List Event)

/-- A piece of Go code, run from the deferred calls pending in the current function. -/
def Go (α : Type) : Type := List Deferred → Res α

def Go.pure {α : Type} (a : α) : Go α := fun d => Res.ret a d []

/-- Sequencing: the second part runs only when the first returns; an exit ends both. -/
def Go.bind {α β : Type} (m : Go α) (f : α → Go β) : Go β := fun d =>
  match m d with
  | Res.ret a d1 evs =>
    match f a d1 with
    | Res.ret b d2 evs2 => Res.ret b d2 (evs ++ evs2)
    | Res.exit code evs2 => Res.exit code (evs ++ evs2)
  | Res.exit code evs => Res.exit code evs

instance : Monad Go where
  pure := Go.pure
  bind := Go.bind

def emit (e : Event) : Go Unit := fun d => Res.ret () d [e]

/-- A collaborator call that returns only an error (or nothing). -/
def call (c : Call) (err : Option Error) : Go (Option Error) := fun d =>
  Res.ret err d [Event.call c err]

/-- A collaborator call that returns a value and an error. -/
def callVal {α : Type} (c : Call) (r : α × Option Error) : Go (α × Option Error) := fun d =>
  Res.ret r d [Event.call c r.2]

def logInfo (msg : String) : Go Unit := emit (Event.logInfo msg)

def logError (err : Error) (msg : String) : Go Unit := emit (Event.logError err msg)

/-- The os.Exit call: the program terminates immediately; deferred functions are not run. -/
def osExit (code : Int) : Go Unit := fun _ => Res.exit code [Event.osExit code]

/-- The call flag.Parse(): it returns, or it ends the process with status 0 (help) or 2
(command-line error) without returning to main. -/
def flagParse (w : World) : Go Unit := fun d =>
  match w.flagParse with
  | FlagOutcome.parsed => Res.ret () d [Event.call Call.flagParse none]
  | FlagOutcome.helpExit => Res.exit 0 [Event.flagExit 0]
  | FlagOutcome.usageExit => Res.exit 2 [Event.flagExit 2]

/-- The defer statement: push a call on the current function's deferred list. -/
def deferCall (x : Deferred) : Go Unit := fun d => Res.ret () (x :: d) []

def runDeferred (w : World) : Deferred → Go Unit
  | Deferred.readyUnset => do
    let _ ← call Call.readyUnset w.readyUnset
    return ()

def runDefers (w : World) : List Deferred → Go Unit
  | [] => return ()
  | x :: xs => do
    runDeferred w x
    runDefers w xs

/-- A Go function body with its own deferred list: on return the deferred calls run, last
registered first; when the body exits the process they do not. -/
def funcScope {α : Type} (w : World) (body : Go α) : Go α := fun d =>
  match body [] with
  | Res.ret a d1 evs =>
    match runDefers w d1 [] with
    | Res.ret _ _ evs2 => Res.ret a d (evs ++ evs2)
    | Res.exit code evs2 => Res.exit code (evs ++ evs2)
  | Res.exit code evs => Res.exit code evs

/-! ## The upgrade package (absent from the sources) -/

/-- Modelled from the spec: the NewUpgradeTask constructors of pkg/upgrade/v040_041 and
pkg/upgrade/v041_042 (not among the sources) bind the version pair and the client. -/
def NewUpgradeTask (pkg : TaskPkg) (fromVersion toVersion : String) (client : Client) :
    Go UpgradeTask := do
  let _ ← call (Call.newUpgradeTask pkg fromVersion toVersion client) none
  return { pkg := pkg, fromVersion := fromVersion, toVersion := toVersion, client := client }

/-- Modelled from the spec: the task loop of upgrade.RunUpgrade (pkg/upgrade, not among the
sources): iterate in the order supplied, invoke apply, abort on the first failure and
propagate that error, succeed when every task succeeded. -/
def runTasks (w : World) : List UpgradeTask → Go (Option Error)
  | [] => return none
  | t :: ts => do
    let err ← call (Call.taskApply t) (w.applyTask t)
    match err with
    | some e => return some e
    | none => runTasks w ts

/-- Modelled from the spec: upgrade.RunUpgrade (pkg/upgrade, not among the sources), the
orchestrator run over an ordered task list. -/
def RunUpgrade (w : World) (tasks : List UpgradeTask) : Go (Option Error) := do
  emit (Event.enterRunUpgrade tasks)
  let err ← runTasks w tasks
  emit (Event.leaveRunUpgrade err)
  return err

/-! ## cmd/manager/main.go -/

def printVersion (w : World) : Go Unit := do
  logInfo ("Go Version: " ++ w.goVersion)
  logInfo ("Go OS/Arch: " ++ w.goOS ++ "/" ++ w.goArch)
  logInfo ("operator-sdk Version: " ++ w.sdkVersion)

/-- The function performUpgrade performs the upgrade operations. -/
def performUpgrade (w : World) (client : Client) : Go (Option Error) := do
  emit (Event.enterPerformUpgrade client)
  let v040_v041UpgradeTask ← NewUpgradeTask TaskPkg.v040_041 "0.4.0" "0.4.1" client
  let v041_v042UpgradeTask ← NewUpgradeTask TaskPkg.v041_042 "0.4.1" "0.4.2" client
  let err ← RunUpgrade w [v040_v041UpgradeTask, v041_v042UpgradeTask]
  emit (Event.leavePerformUpgrade err)
  return err

/-- The `if err != nil` block that every checked step of main is followed by. -/
def fatalIf (err : Option Error) (msg : String) : Go Unit :=
  match err with
  | some e => do
    logError e msg
    osExit 1
  | none => return ()

/-- Body of main, statement by statement. -/
def mainBody (w : World) : Go Unit := do
  flagParse w
  let _ ← call Call.setLogger none
  printVersion w
  let (ns, err) ← callVal Call.getWatchNamespace w.getWatchNamespace
  fatalIf err "failed to get watch namespace"
  -- Get a config to talk to the apiserver
  let (cfg, err) ← callVal Call.getConfig w.getConfig
  fatalIf err ""
  -- Become the leader before proceeding (the returned error is dropped)
  let _ ← call (Call.leaderBecome "node-disk-manager-lock") w.leaderBecome
  let _ ← call Call.newFileReady none
  let err ← call Call.readySet w.readySet
  fatalIf err ""
  deferCall Deferred.readyUnset
  let reconInterval := ReconciliationInterval
  -- Create a new Cmd to provide shared dependencies and start components
  let (mgr, err) ← callVal
    (Call.managerNew cfg { Namespace := ns, SyncPeriod := some reconInterval }) w.managerNew
  fatalIf err ""
  logInfo "Installing the components"
  -- get a new install setup
  let err ← call (Call.newInstallSetup cfg) w.newInstallSetup
  fatalIf err ""
  -- install the components
  let err ← call Call.install w.install
  fatalIf err ""
  logInfo "Registering Components"
  -- Setup Scheme for all resources
  let _ ← call (Call.getScheme mgr) none
  let err ← call Call.addToScheme w.addToScheme
  fatalIf err ""
  -- Upgrade the components if required
  let (k8sClient, err) ← callVal (Call.clientNew cfg) w.clientNew
  fatalIf err ""
  logInfo "Check if CR has to be upgraded, and perform upgrade"
  let err ← performUpgrade w k8sClient
  fatalIf err "Upgrade failed"
  -- Setup all Controllers
  let err ← call (Call.addToManager mgr) w.addToManager
  fatalIf err ""
  logInfo "Starting the ndm-operator..."
  -- Start the Cmd
  let _ ← call Call.setupSignalHandler none
  let err ← call (Call.mgrStart mgr) w.mgrStart
  fatalIf err "manager exited non-zero"

/-- The Go function main: its body, then its deferred calls when the body returns. -/
def main (w : World) : Go Unit := funcScope w (mainBody w)

/-- One whole execution of the process: its trace and its exit status. -/
structure Run where
  trace : List Event
  exitCode : Int
deriving DecidableEq, Repr

/-- The main goroutine alone: when main returns, the program exits with status 0; when
os.Exit was called, with the status given to it. -/
def runMain (w : World) : Run :=
  match main w [] with
  | Res.ret _ _ evs => { trace := evs, exitCode := 0 }
  | Res.exit code evs => { trace := evs, exitCode := code }

/-- The events that end the process. -/
def isExit : Event → Bool
  | Event.osExit _ => true
  | Event.flagExit _ => true
  | Event.signalExit => true
  | _ => false

def isHandlerInstalled : Event → Bool
  | Event.call Call.setupSignalHandler _ => true
  | _ => false

/-- Split a trace after the return of signals.SetupSignalHandler, if it was called. -/
def splitAtHandler : List Event → Option (List Event × List Event)
  | [] => none
  | e :: es =>
    if isHandlerInstalled e then some ([e], es)
    else
      match splitAtHandler es with
      | some (before, after) => some (e :: before, after)
      | none => none

/-- The main goroutine's events after the handler was installed, cut by the handler's
os.Exit(1) once `k` of them have completed; `none` when the process has ended before
(main called os.Exit, or main returned and fewer than `k` events were left). -/
def cutAfter : Nat → List Event → Option (List Event)
  | 0, _ => some [Event.signalExit]
  | _ + 1, [] => none
  | k + 1, e :: es =>
    if isExit e then none
    else
      match cutAfter k es with
      | some cut => some (e :: cut)
      | none => none

/-- The goroutine started by signals.SetupSignalHandler: on the second signal it calls
os.Exit(1), whatever the main goroutine is doing. -/
def applySignal (w : World) (r : Run) : Run :=
  match w.secondSignal with
  | none => r
  | some k =>
    match splitAtHandler r.trace with
    | none => r
    | some (before, after) =>
      match cutAfter k after with
      | none => r
      | some cut => { trace := before ++ cut, exitCode := 1 }

/-- Run the process: the main goroutine, and the signal handler's goroutine that may end
the process under it. -/
def execute (w : World) : Run := applySignal w (runMain w)

/-- The world in which every collaborator succeeds. -/
def okWorld : World where
  flagParse := FlagOutcome.parsed
  secondSignal := none
  goVersion := "go1.12"
  goOS := "linux"
  goArch := "amd64"
  sdkVersion := "v0.5.0"
  getWatchNamespace := ("openebs", none)
  getConfig := ({ id := 1 }, none)
  leaderBecome := none
  readySet := none
  readyUnset := none
  managerNew := ({ id := 2 }, none)
  newInstallSetup := none
  install := none
  addToScheme := none
  clientNew := ({ id := 3 }, none)
  applyTask := fun _ => none
  addToManager := none
  mgrStart := none

/-- The first task of the chain built by performUpgrade. -/
abbrev task1 (c : Client) : UpgradeTask :=
  { pkg := TaskPkg.v040_041, fromVersion := "0.4.0", toVersion := "0.4.1", client := c }

/-- The second task of the chain built by performUpgrade. -/
abbrev task2 (c : Client) : UpgradeTask :=
  { pkg := TaskPkg.v041_042, fromVersion := "0.4.1", toVersion := "0.4.2", client := c }

/-- The events of performUpgrade up to the first task of the run, followed by `tl`. -/
abbrev upgradeStart (c : Client) (tl : List Event) : List Event :=
  Event.enterPerformUpgrade c ::
  Event.call (Call.newUpgradeTask TaskPkg.v040_041 "0.4.0" "0.4.1" c) none ::
  Event.call (Call.newUpgradeTask TaskPkg.v041_042 "0.4.1" "0.4.2" c) none ::
  Event.enterRunUpgrade [task1 c, task2 c] :: tl

/-! ## The shapes of an execution -/

/-- Events up to the call of GetWatchNamespace, followed by `tl`. -/
abbrev pre1 (w : World) (tl : List Event) : List Event :=
  Event.call Call.flagParse none :: Event.call Call.setLogger none ::
  Event.logInfo ("Go Version: " ++ w.goVersion) ::
  Event.logInfo ("Go OS/Arch: " ++ w.goOS ++ "/" ++ w.goArch) ::
  Event.logInfo ("operator-sdk Version: " ++ w.sdkVersion) :: tl

/-- Events up to the call of GetConfig, followed by `tl`. -/
abbrev pre2 (w : World) (tl : List Event) : List Event :=
  pre1 w (Event.call Call.getWatchNamespace none :: tl)

/-- Events up to the call of r.Set, followed by `tl`. -/
abbrev pre3 (w : World) (tl : List Event) : List Event :=
  pre2 w (Event.call Call.getConfig none ::
    Event.call (Call.leaderBecome "node-disk-manager-lock") w.leaderBecome ::
    Event.call Call.newFileReady none :: tl)

/-- Events up to the call of manager.New, followed by `tl`. -/
abbrev pre4 (w : World) (tl : List Event) : List Event :=
  pre3 w (Event.call Call.readySet none :: tl)

/-- The call of manager.New as main makes it. -/
abbrev mgrCall (w : World) : Call :=
  Call.managerNew w.getConfig.1
    { Namespace := w.getWatchNamespace.1, SyncPeriod := some ReconciliationInterval }

/-- Events up to the call of setup.NewInstallSetup, followed by `tl`. -/
abbrev pre5 (w : World) (tl : List Event) : List Event :=
  pre4 w (Event.call (mgrCall w) none :: Event.logInfo "Installing the components" :: tl)

/-- Events up to the call of setupConfig.Install, followed by `tl`. -/
abbrev pre6 (w : World) (tl : List Event) : List Event :=
  pre5 w (Event.call (Call.newInstallSetup w.getConfig.1) none :: tl)

/-- Events up to the call of apis.AddToScheme, followed by `tl`. -/
abbrev pre7 (w : World) (tl : List Event) : List Event :=
  pre6 w (Event.call Call.install none :: Event.logInfo "Registering Components" ::
    Event.call (Call.getScheme w.managerNew.1) none :: tl)

/-- Events up to the call of client.New, followed by `tl`. -/
abbrev pre8 (w : World) (tl : List Event) : List Event :=
  pre7 w (Event.call Call.addToScheme none :: tl)

/-- Events up to the first task of the upgrade run, followed by `tl`. -/
abbrev pre9 (w : World) (tl : List Event) : List Event :=
  pre8 w (Event.call (Call.clientNew w.getConfig.1) none ::
    Event.logInfo "Check if CR has to be upgraded, and perform upgrade" ::
    Event.enterPerformUpgrade w.clientNew.1 ::
    Event.call (Call.newUpgradeTask TaskPkg.v040_041 "0.4.0" "0.4.1" w.clientNew.1) none ::
    Event.call (Call.newUpgradeTask TaskPkg.v041_042 "0.4.1" "0.4.2" w.clientNew.1) none ::
    Event.enterRunUpgrade [task1 w.clientNew.1, task2 w.clientNew.1] :: tl)

/-- Events up to the second task of the upgrade run, followed by `tl`. -/
abbrev pre10 (w : World) (tl : List Event) : List Event :=
  pre9 w (Event.call (Call.taskApply (task1 w.clientNew.1)) none :: tl)

/-- Events up to the call of controller.AddToManager, followed by `tl`. -/
abbrev pre11 (w : World) (tl : List Event) : List Event :=
  pre10 w (Event.call (Call.taskApply (task2 w.clientNew.1)) none ::
    Event.leaveRunUpgrade none :: Event.leavePerformUpgrade none :: tl)

/-- Events up to the call of mgr.Start, followed by `tl`. -/
abbrev pre12 (w : World) (tl : List Event) : List Event :=
  pre11 w (Event.call (Call.addToManager w.managerNew.1) none ::
    Event.logInfo "Starting the ndm-operator..." ::
    Event.call Call.setupSignalHandler none :: tl)

/-- The ways an execution can go: the two exits inside flag.Parse, the twelve fatal exits
of main, its normal return, and the five points at which the signal handler can end the
process. -/
inductive Path (w : World) : Run → Prop where
  | nsFail (e : Error) (h : w.getWatchNamespace.2 = some e) :
    Path w ⟨pre1 w [Event.call Call.getWatchNamespace (some e),
      Event.logError e "failed to get watch namespace", Event.osExit 1], 1⟩
  | cfgFail (e : Error) (h : w.getConfig.2 = some e) :
    Path w ⟨pre2 w [Event.call Call.getConfig (some e), Event.logError e "", Event.osExit 1], 1⟩
  | setFail (e : Error) (h : w.readySet = some e) :
    Path w ⟨pre3 w [Event.call Call.readySet (some e), Event.logError e "", Event.osExit 1], 1⟩
  | mgrFail (e : Error) (h : w.managerNew.2 = some e) :
    Path w ⟨pre4 w [Event.call (mgrCall w) (some e), Event.logError e "", Event.osExit 1], 1⟩
  | setupFail (e : Error) (h : w.newInstallSetup = some e) :
    Path w ⟨pre5 w [Event.call (Call.newInstallSetup w.getConfig.1) (some e),
      Event.logError e "", Event.osExit 1], 1⟩
  | installFail (e : Error) (h : w.install = some e) :
    Path w ⟨pre6 w [Event.call Call.install (some e), Event.logError e "", Event.osExit 1], 1⟩
  | schemeFail (e : Error) (h : w.addToScheme = some e) :
    Path w ⟨pre7 w [Event.call Call.addToScheme (some e), Event.logError e "", Event.osExit 1], 1⟩
  | clientFail (e : Error) (h : w.clientNew.2 = some e) :
    Path w ⟨pre8 w [Event.call (Call.clientNew w.getConfig.1) (some e),
      Event.logError e "", Event.osExit 1], 1⟩
  | task1Fail (e : Error) (h : w.applyTask (task1 w.clientNew.1) = some e) :
    Path w ⟨pre9 w [Event.call (Call.taskApply (task1 w.clientNew.1)) (some e),
      Event.leaveRunUpgrade (some e),
      Event.leavePerformUpgrade (some e), Event.logError e "Upgrade failed", Event.osExit 1], 1⟩
  | task2Fail (e : Error) (h1 : w.applyTask (task1 w.clientNew.1) = none)
      (h : w.applyTask (task2 w.clientNew.1) = some e) :
    Path w ⟨pre10 w [Event.call (Call.taskApply (task2 w.clientNew.1)) (some e),
      Event.leaveRunUpgrade (some e),
      Event.leavePerformUpgrade (some e), Event.logError e "Upgrade failed", Event.osExit 1], 1⟩
  | addFail (e : Error) (h1 : w.applyTask (task1 w.clientNew.1) = none)
      (h : w.addToManager = some e) :
    Path w ⟨pre11 w [Event.call (Call.addToManager w.managerNew.1) (some e),
      Event.logError e "", Event.osExit 1], 1⟩
  | startFail (e : Error) (h1 : w.applyTask (task1 w.clientNew.1) = none)
      (h : w.mgrStart = some e) :
    Path w ⟨pre12 w [Event.call (Call.mgrStart w.managerNew.1) (some e),
      Event.logError e "manager exited non-zero", Event.osExit 1], 1⟩
  | returned (h1 : w.applyTask (task1 w.clientNew.1) = none) (h : w.mgrStart = none) :
    Path w ⟨pre12 w [Event.call (Call.mgrStart w.managerNew.1) none,
      Event.call Call.readyUnset w.readyUnset], 0⟩
  | flagHelp (h : w.flagParse = FlagOutcome.helpExit) : Path w ⟨[Event.flagExit 0], 0⟩
  | flagUsage (h : w.flagParse = FlagOutcome.usageExit) : Path w ⟨[Event.flagExit 2], 2⟩
  | sigBeforeStart (hs : w.secondSignal = some 0)
      (h1 : w.applyTask (task1 w.clientNew.1) = none) :
    Path w ⟨pre12 w [Event.signalExit], 1⟩
  | sigAfterStartErr (e : Error) (hs : w.secondSignal = some 1)
      (h1 : w.applyTask (task1 w.clientNew.1) = none) (h : w.mgrStart = some e) :
    Path w ⟨pre12 w [Event.call (Call.mgrStart w.managerNew.1) (some e), Event.signalExit], 1⟩
  | sigAfterStartOk (hs : w.secondSignal = some 1)
      (h1 : w.applyTask (task1 w.clientNew.1) = none) (h : w.mgrStart = none) :
    Path w ⟨pre12 w [Event.call (Call.mgrStart w.managerNew.1) none, Event.signalExit], 1⟩
  | sigAfterLog (e : Error) (hs : w.secondSignal = some 2)
      (h1 : w.applyTask (task1 w.clientNew.1) = none) (h : w.mgrStart = some e) :
    Path w ⟨pre12 w [Event.call (Call.mgrStart w.managerNew.1) (some e),
      Event.logError e "manager exited non-zero", Event.signalExit], 1⟩
  | sigAfterUnset (hs : w.secondSignal = some 2)
      (h1 : w.applyTask (task1 w.clientNew.1) = none) (h : w.mgrStart = none) :
    Path w ⟨pre12 w [Event.call (Call.mgrStart w.managerNew.1) none,
      Event.call Call.readyUnset w.readyUnset, Event.signalExit], 1⟩

/-! ## Version order -/

/-- Value of a decimal digit character. -/
def digitValue (c : Char) : Option Nat :=
  if c.isDigit then some (c.toNat - 48) else none

def parseDigits : List Char → Nat → Option Nat
  | [], acc => some acc
  | c :: cs, acc =>
    match digitValue c with
    | some d => parseDigits cs (10 * acc + d)
    | none => none

/-- A non-empty run of decimal digits, read as a number. -/
def parseNumber (cs : List Char) : Option Nat :=
  if cs.isEmpty then none else parseDigits cs 0

/-- Split a character list at every dot. -/
def splitDots : List Char → List (List Char)
  | [] => [[]]
  | c :: cs =>
    if c = '.' then [] :: splitDots cs
    else
      match splitDots cs with
      | [] => [[c]]
      | f :: fs => (c :: f) :: fs

/-- Modelled from the spec: a Version is a semantic-version string MAJOR.MINOR.PATCH; the
sources hold no parser for it. -/
def parseVersion (v : String) : Option (Nat × Nat × Nat) :=
  match splitDots v.toList with
  | [a, b, c] =>
    match parseNumber a, parseNumber b, parseNumber c with
    | some x, some y, some z => some (x, y, z)
    | _, _, _ => none
  | _ => none

/-- Modelled from the spec: the global version order, semantic-version precedence (major,
then minor, then patch, each compared as a number); strings that are not versions are
unordered. -/
def versionLt (a b : String) : Bool :=
  match parseVersion a, parseVersion b with
  | some (x1, y1, z1), some (x2, y2, z2) =>
    decide (x1 < x2) || (decide (x1 = x2) && (decide (y1 < y2) || (decide (y1 = y2) && decide (z1 < z2))))
  | _, _ => false

/-- Modelled from the spec: the invariant of a configured task chain.  Every task goes from
a version to a strictly later one, the tasks are in ascending version order, and each
task ends at the version the next one starts from. -/
def ValidChain (chain : List UpgradeTask) : Prop :=
  (∀ t ∈ chain, versionLt t.fromVersion t.toVersion = true) ∧
  List.Pairwise (fun a b => versionLt a.fromVersion b.fromVersion = true ∧
    versionLt a.toVersion b.toVersion = true) chain ∧
  List.Chain' (fun a b => a.toVersion = b.fromVersion) chain

instance (chain : List UpgradeTask) : Decidable (ValidChain chain) := by
  unfold ValidChain
  infer_instance

/-! ## Observations on traces -/

/-- The events a piece of Go code emits. -/
def Res.trace {α : Type} : Res α → List Event
  | Res.ret _ _ evs => evs
  | Res.exit _ evs => evs

/-- The task lists handed to RunUpgrade, in order of the calls. -/
def runUpgradeArgs : List Event → List (List UpgradeTask)
  | [] => []
  | Event.enterRunUpgrade tasks :: es => tasks :: runUpgradeArgs es
  | _ :: es => runUpgradeArgs es

def isBecome : Event → Bool
  | Event.call (Call.leaderBecome _) _ => true
  | _ => false

def isInstall : Event → Bool
  | Event.call Call.install _ => true
  | _ => false

/-- Entry to and return from performUpgrade. -/
def isPerformUpgrade : Event → Bool
  | Event.enterPerformUpgrade _ => true
  | Event.leavePerformUpgrade _ => true
  | _ => false

def isEnterPerformUpgrade : Event → Bool
  | Event.enterPerformUpgrade _ => true
  | _ => false

/-- The return of performUpgrade with a nil error. -/
def isUpgradeOk : Event → Bool
  | Event.leavePerformUpgrade none => true
  | _ => false

/-- The return of performUpgrade with a non-nil error. -/
def isUpgradeFailed : Event → Bool
  | Event.leavePerformUpgrade (some _) => true
  | _ => false

def isAddToManager : Event → Bool
  | Event.call (Call.addToManager _) _ => true
  | _ => false

def isMgrStart : Event → Bool
  | Event.call (Call.mgrStart _) _ => true
  | _ => false

/-- Controller registration (controller.AddToManager) and manager start (mgr.Start). -/
def isControllerStart (e : Event) : Bool := isAddToManager e || isMgrStart e

/-- The calls that write to the cluster: Install, and the upgrade run with its tasks. -/
def isClusterMutating : Event → Bool
  | Event.call Call.install _ => true
  | Event.enterPerformUpgrade _ => true
  | Event.enterRunUpgrade _ => true
  | Event.call (Call.taskApply _) _ => true
  | _ => false

/-- Every event satisfying q has an event satisfying p somewhere before it. -/
def precededByB (p q : Event → Bool) : List Event → Bool
  | [] => true
  | e :: es => if q e then false else if p e then true else precededByB p q es

/-- No event satisfying p comes after an event satisfying q. -/
def noneAfterB (p q : Event → Bool) : List Event → Bool
  | [] => true
  | e :: es => (if q e then es.all (fun x => !p x) else true) && noneAfterB p q es

/-- In a trace, p happens before q: every q-event has a p-event before it and none after. -/
def Before (p q : Event → Bool) (tr : List Event) : Prop :=
  ∀ pre e post, tr = pre ++ e :: post → q e = true →
    (∃ x ∈ pre, p x = true) ∧ ∀ x ∈ post, p x = false

/-- The steps of the bootstrap, in the order of main. -/
inductive Step where
  | watchNamespace
  | clusterConfig
  | leadership
  | readinessMarker
  | managerCreation
  | installSetup
  | install
  | schemeRegistration
  | clientCreation
  | upgradeRun
  | controllerRegistration
  | managerStart
deriving DecidableEq, Repr

/-- The step of main that an event completes, if any. -/
def stepOf : Event → Option Step
  | Event.call Call.getWatchNamespace _ => some Step.watchNamespace
  | Event.call Call.getConfig _ => some Step.clusterConfig
  | Event.call (Call.leaderBecome _) _ => some Step.leadership
  | Event.call Call.readySet _ => some Step.readinessMarker
  | Event.call (Call.managerNew _ _) _ => some Step.managerCreation
  | Event.call (Call.newInstallSetup _) _ => some Step.installSetup
  | Event.call Call.install _ => some Step.install
  | Event.call Call.addToScheme _ => some Step.schemeRegistration
  | Event.call (Call.clientNew _) _ => some Step.clientCreation
  | Event.leavePerformUpgrade _ => some Step.upgradeRun
  | Event.call (Call.addToManager _) _ => some Step.controllerRegistration
  | Event.call (Call.mgrStart _) _ => some Step.managerStart
  | _ => none

/-- The error a completed call or a return of performUpgrade carries. -/
def stepError : Event → Option Error
  | Event.call _ err => err
  | Event.leavePerformUpgrade err => err
  | _ => none

/-- A step other than leadership acquisition that returned a non-nil error. -/
def isFailedStep (e : Event) : Bool :=
  match stepOf e with
  | none => false
  | some Step.leadership => false
  | some _ => (stepError e).isSome

def isLogError : Event → Bool
  | Event.logError _ _ => true
  | _ => false

/-- Completion of step s with a nil error. -/
def isStepOk (s : Step) (e : Event) : Bool := decide (stepOf e = some s) && (stepError e).isNone

/-- Installation: setup.NewInstallSetup and setupConfig.Install. -/
def isInstallation : Event → Bool
  | Event.call (Call.newInstallSetup _) _ => true
  | Event.call Call.install _ => true
  | _ => false

def isFailedInstallation (e : Event) : Bool := isInstallation e && (stepError e).isSome

/-- Everything from the construction of the upgrade client on: the upgrade run and the
registration and start of the controllers. -/
def isUpgradeOrControllers : Event → Bool
  | Event.call (Call.clientNew _) _ => true
  | Event.enterPerformUpgrade _ => true
  | Event.leavePerformUpgrade _ => true
  | Event.call (Call.newUpgradeTask _ _ _ _) _ => true
  | Event.enterRunUpgrade _ => true
  | Event.leaveRunUpgrade _ => true
  | Event.call (Call.taskApply _) _ => true
  | Event.call (Call.addToManager _) _ => true
  | Event.call Call.setupSignalHandler _ => true
  | Event.call (Call.mgrStart _) _ => true
  | _ => false

def isUnset : Event → Bool
  | Event.call Call.readyUnset _ => true
  | _ => false

/-- A task apply that returned an error. -/
def isFailedApply : Event → Bool
  | Event.call (Call.taskApply _) (some _) => true
  | _ => false

/-- An apply of a task built by the v041_042 package. -/
def isApplySecond : Event → Bool
  | Event.call (Call.taskApply t) _ => decide (t.pkg = TaskPkg.v041_042)
  | _ => false

/-- The manager is created with the fixed synchronization interval. -/
def syncPeriodOk : Event → Bool
  | Event.call (Call.managerNew _ opts) _ => decide (opts.SyncPeriod = some ReconciliationInterval)
  | _ => true

/-! ## Sample worlds -/

/-- Leadership acquisition fails, everything else succeeds. -/
def becomeFailWorld : World :=
  { okWorld with leaderBecome := some "leader election failed" }

/-- The readiness marker is set, then manager creation fails. -/
def mgrFailWorld : World :=
  { okWorld with managerNew := ({ id := 0 }, some "no manager") }

/-- Installation fails. -/
def installFailWorld : World :=
  { okWorld with install := some "install failed" }

/-- The command line asks for help: flag.Parse ends the process. -/
def helpWorld : World :=
  { okWorld with flagParse := FlagOutcome.helpExit }

/-- The command line has an undefined flag: flag.Parse ends the process. -/
def usageWorld : World :=
  { okWorld with flagParse := FlagOutcome.usageExit }

/-- A second signal arrives while mgr.Start is shutting down. -/
def signalWorld : World :=
  { okWorld with secondSignal := some 0 }

/-- The first upgrade task fails. -/
def task1FailWorld : World :=
  { okWorld with
    applyTask := fun t =>
      match t.pkg with
      | TaskPkg.v040_041 => some "write conflict"
      | TaskPkg.v041_042 => none }

/-! ## Trace lemmas -/

theorem precededByB_sound (p q : Event → Bool) :
    ∀ tr, precededByB p q tr = true → ∀ pre e post, tr = pre ++ e :: post → q e = true →
      ∃ x ∈ pre, p x = true := by
  intro tr
  induction tr with
  | nil =>
    intro _ pre e post h _
    cases pre <;> simp at h
  | cons a tr ih =>
    intro hb pre e post h hq
    cases pre with
    | nil =>
      simp only [List.nil_append, List.cons.injEq] at h
      obtain ⟨rfl, -⟩ := h
      simp [precededByB, hq] at hb
    | cons x pre =>
      simp only [List.cons_append, List.cons.injEq] at h
      obtain ⟨rfl, h⟩ := h
      by_cases hqa : q a = true
      · simp [precededByB, hqa] at hb
      · by_cases hpa : p a = true
        · exact ⟨a, List.mem_cons_self _ _, hpa⟩
        · simp only [precededByB, hqa, hpa] at hb
          obtain ⟨x, hx, hpx⟩ := ih hb pre e post h hq
          exact ⟨x, List.mem_cons_of_mem _ hx, hpx⟩

theorem noneAfterB_sound (p q : Event → Bool) :
    ∀ tr, noneAfterB p q tr = true → ∀ pre e post, tr = pre ++ e :: post → q e = true →
      ∀ x ∈ post, p x = false := by
  intro tr
  induction tr with
  | nil =>
    intro _ pre e post h _
    cases pre <;> simp at h
  | cons a tr ih =>
    intro hb pre e post h hq
    simp only [noneAfterB, Bool.and_eq_true] at hb
    cases pre with
    | nil =>
      simp only [List.nil_append, List.cons.injEq] at h
      obtain ⟨rfl, rfl⟩ := h
      have h1 := hb.1
      simp only [hq, if_true, List.all_eq_true] at h1
      intro x hx
      simpa using h1 x hx
    | cons x pre =>
      simp only [List.cons_append, List.cons.injEq] at h
      exact ih hb.2 pre e post h.2 hq

theorem before_of_checks (p q : Event → Bool) (tr : List Event)
    (h1 : precededByB p q tr = true) (h2 : noneAfterB p q tr = true) : Before p q tr :=
  fun pre e post h hq =>
    ⟨precededByB_sound p q tr h1 pre e post h hq, noneAfterB_sound p q tr h2 pre e post h hq⟩

/-! ## Every execution follows one of the paths -/

/-- The main goroutine alone follows one of the sequential paths. -/
theorem runMain_path (w : World) : Path w (runMain w) := by
  rcases hf : w.flagParse
  case helpExit =>
    convert Path.flagHelp (w := w) hf using 1
    simp [runMain, main, funcScope, mainBody, flagParse, bind, Go.bind, pure, Go.pure, call, callVal, emit,
      logInfo, logError, osExit, fatalIf, printVersion, deferCall, performUpgrade, NewUpgradeTask,
      RunUpgrade, runTasks, runDefers, runDeferred, hf]
  case usageExit =>
    convert Path.flagUsage (w := w) hf using 1
    simp [runMain, main, funcScope, mainBody, flagParse, bind, Go.bind, pure, Go.pure, call, callVal, emit,
      logInfo, logError, osExit, fatalIf, printVersion, deferCall, performUpgrade, NewUpgradeTask,
      RunUpgrade, runTasks, runDefers, runDeferred, hf]
  rcases h0 : w.getWatchNamespace with ⟨v0, _ | e⟩
  swap
  · convert Path.nsFail (w := w) e (by simp [h0]) using 1
    simp [runMain, main, funcScope, mainBody, flagParse, bind, Go.bind, pure, Go.pure, call, callVal, emit,
      logInfo, logError, osExit, fatalIf, printVersion, deferCall, performUpgrade, NewUpgradeTask,
      RunUpgrade, runTasks, runDefers, runDeferred,
      hf, h0]
  rcases h1 : w.getConfig with ⟨v1, _ | e⟩
  swap
  · convert Path.cfgFail (w := w) e (by simp [h1]) using 1
    simp [runMain, main, funcScope, mainBody, flagParse, bind, Go.bind, pure, Go.pure, call, callVal, emit,
      logInfo, logError, osExit, fatalIf, printVersion, deferCall, performUpgrade, NewUpgradeTask,
      RunUpgrade, runTasks, runDefers, runDeferred,
      hf, h0, h1]
  rcases h2 : w.readySet with _ | e
  swap
  · convert Path.setFail (w := w) e (by simp [h2]) using 1
    simp [runMain, main, funcScope, mainBody, flagParse, bind, Go.bind, pure, Go.pure, call, callVal, emit,
      logInfo, logError, osExit, fatalIf, printVersion, deferCall, performUpgrade, NewUpgradeTask,
      RunUpgrade, runTasks, runDefers, runDeferred,
      hf, h0, h1, h2]
  rcases h3 : w.managerNew with ⟨v3, _ | e⟩
  swap
  · convert Path.mgrFail (w := w) e (by simp [h3]) using 1
    simp [runMain, main, funcScope, mainBody, flagParse, bind, Go.bind, pure, Go.pure, call, callVal, emit,
      logInfo, logError, osExit, fatalIf, printVersion, deferCall, performUpgrade, NewUpgradeTask,
      RunUpgrade, runTasks, runDefers, runDeferred,
      hf, h0, h1, h2, h3]
  rcases h4 : w.newInstallSetup with _ | e
  swap
  · convert Path.setupFail (w := w) e (by simp [h4]) using 1
    simp [runMain, main, funcScope, mainBody, flagParse, bind, Go.bind, pure, Go.pure, call, callVal, emit,
      logInfo, logError, osExit, fatalIf, printVersion, deferCall, performUpgrade, NewUpgradeTask,
      RunUpgrade, runTasks, runDefers, runDeferred,
      hf, h0, h1, h2, h3, h4]
  rcases h5 : w.install with _ | e
  swap
  · convert Path.installFail (w := w) e (by simp [h5]) using 1
    simp [runMain, main, funcScope, mainBody, flagParse, bind, Go.bind, pure, Go.pure, call, callVal, emit,
      logInfo, logError, osExit, fatalIf, printVersion, deferCall, performUpgrade, NewUpgradeTask,
      RunUpgrade, runTasks, runDefers, runDeferred,
      hf, h0, h1, h2, h3, h4, h5]
  rcases h6 : w.addToScheme with _ | e
  swap
  · convert Path.schemeFail (w := w) e (by simp [h6]) using 1
    simp [runMain, main, funcScope, mainBody, flagParse, bind, Go.bind, pure, Go.pure, call, callVal, emit,
      logInfo, logError, osExit, fatalIf, printVersion, deferCall, performUpgrade, NewUpgradeTask,
      RunUpgrade, runTasks, runDefers, runDeferred,
      hf, h0, h1, h2, h3, h4, h5, h6]
  rcases h7 : w.clientNew with ⟨v7, _ | e⟩
  swap
  · convert Path.clientFail (w := w) e (by simp [h7]) using 1
    simp [runMain, main, funcScope, mainBody, flagParse, bind, Go.bind, pure, Go.pure, call, callVal, emit,
      logInfo, logError, osExit, fatalIf, printVersion, deferCall, performUpgrade, NewUpgradeTask,
      RunUpgrade, runTasks, runDefers, runDeferred,
      hf, h0, h1, h2, h3, h4, h5, h6, h7]
  have hc : w.clientNew.1 = v7 := by simp [h7]
  rcases t1 : w.applyTask (task1 v7) with _ | e
  swap
  · convert Path.task1Fail (w := w) e (by simp [hc, t1]) using 1
    simp [runMain, main, funcScope, mainBody, flagParse, bind, Go.bind, pure, Go.pure, call, callVal, emit,
      logInfo, logError, osExit, fatalIf, printVersion, deferCall, performUpgrade, NewUpgradeTask,
      RunUpgrade, runTasks, runDefers, runDeferred,
      hf, h0, h1, h2, h3, h4, h5, h6, h7, t1]
  rcases t2 : w.applyTask (task2 v7) with _ | e
  swap
  · convert Path.task2Fail (w := w) e (by simp [hc, t1]) (by simp [hc, t2]) using 1
    simp [runMain, main, funcScope, mainBody, flagParse, bind, Go.bind, pure, Go.pure, call, callVal, emit,
      logInfo, logError, osExit, fatalIf, printVersion, deferCall, performUpgrade, NewUpgradeTask,
      RunUpgrade, runTasks, runDefers, runDeferred,
      hf, h0, h1, h2, h3, h4, h5, h6, h7, t1, t2]
  rcases h8 : w.addToManager with _ | e
  swap
  · convert Path.addFail (w := w) e (by simp [hc, t1]) h8 using 1
    simp [runMain, main, funcScope, mainBody, flagParse, bind, Go.bind, pure, Go.pure, call, callVal, emit,
      logInfo, logError, osExit, fatalIf, printVersion, deferCall, performUpgrade, NewUpgradeTask,
      RunUpgrade, runTasks, runDefers, runDeferred,
      hf, h0, h1, h2, h3, h4, h5, h6, h7, t1, t2, h8]
  rcases h9 : w.mgrStart with _ | e
  swap
  · convert Path.startFail (w := w) e (by simp [hc, t1]) h9 using 1
    simp [runMain, main, funcScope, mainBody, flagParse, bind, Go.bind, pure, Go.pure, call, callVal, emit,
      logInfo, logError, osExit, fatalIf, printVersion, deferCall, performUpgrade, NewUpgradeTask,
      RunUpgrade, runTasks, runDefers, runDeferred,
      hf, h0, h1, h2, h3, h4, h5, h6, h7, t1, t2, h8, h9]
  convert Path.returned (w := w) (by simp [hc, t1]) h9 using 1
  simp [runMain, main, funcScope, mainBody, flagParse, bind, Go.bind, pure, Go.pure, call, callVal, emit,
      logInfo, logError, osExit, fatalIf, printVersion, deferCall, performUpgrade, NewUpgradeTask,
      RunUpgrade, runTasks, runDefers, runDeferred,
    hf, h0, h1, h2, h3, h4, h5, h6, h7, t1, t2, h8, h9]

/-- The signal handler turns a path into a path. -/
theorem applySignal_path (w : World) (r : Run) (hp : Path w r) : Path w (applySignal w r) := by
  unfold applySignal
  rcases hk : w.secondSignal with _ | k
  · exact hp
  · cases hp
    case startFail e h1 h =>
      rcases k with _ | _ | _ | k
      · exact Path.sigBeforeStart hk h1
      · exact Path.sigAfterStartErr e hk h1 h
      · exact Path.sigAfterLog e hk h1 h
      · exact Path.startFail e h1 h
    case returned h1 h =>
      rcases k with _ | _ | _ | k
      · exact Path.sigBeforeStart hk h1
      · exact Path.sigAfterStartOk hk h1 h
      · exact Path.sigAfterUnset hk h1 h
      · exact Path.returned h1 h
    case sigBeforeStart hs h1 =>
      obtain rfl : 0 = k := Option.some.inj (hs.symm.trans hk)
      exact Path.sigBeforeStart hs h1
    case sigAfterStartErr e hs h1 h =>
      obtain rfl : 1 = k := Option.some.inj (hs.symm.trans hk)
      exact Path.sigAfterStartErr e hs h1 h
    case sigAfterStartOk hs h1 h =>
      obtain rfl : 1 = k := Option.some.inj (hs.symm.trans hk)
      exact Path.sigAfterStartOk hs h1 h
    case sigAfterLog e hs h1 h =>
      obtain rfl : 2 = k := Option.some.inj (hs.symm.trans hk)
      exact Path.sigAfterLog e hs h1 h
    case sigAfterUnset hs h1 h =>
      obtain rfl : 2 = k := Option.some.inj (hs.symm.trans hk)
      exact Path.sigAfterUnset hs h1 h
    case nsFail e h => exact Path.nsFail e h
    case cfgFail e h => exact Path.cfgFail e h
    case setFail e h => exact Path.setFail e h
    case mgrFail e h => exact Path.mgrFail e h
    case setupFail e h => exact Path.setupFail e h
    case installFail e h => exact Path.installFail e h
    case schemeFail e h => exact Path.schemeFail e h
    case clientFail e h => exact Path.clientFail e h
    case task1Fail e h => exact Path.task1Fail e h
    case task2Fail e h1 h => exact Path.task2Fail e h1 h
    case addFail e h1 h => exact Path.addFail e h1 h
    case flagHelp h => exact Path.flagHelp h
    case flagUsage h => exact Path.flagUsage h

theorem execute_path (w : World) : Path w (execute w) :=
  applySignal_path w _ (runMain_path w)

theorem isUpgradeOk_eq (e : Event) (h : isUpgradeOk e = true) :
    e = Event.leavePerformUpgrade none := by
  unfold isUpgradeOk at h
  split at h
  · rfl
  · exact absurd h (by decide)

theorem isEnterPerformUpgrade_eq (e : Event) (h : isEnterPerformUpgrade e = true) :
    ∃ c, e = Event.enterPerformUpgrade c := by
  unfold isEnterPerformUpgrade at h
  split at h
  · exact ⟨_, rfl⟩
  · exact absurd h (by decide)

/-! ## Claims -/

/-- C1: in every execution of main, a call of controller.AddToManager or mgr.Start comes
only after performUpgrade was entered and has returned a nil error, and no return of
performUpgrade with an error comes before it. -/
theorem controllers_only_after_successful_upgrade (w : World) (pre post : List Event)
    (e : Event) (hsplit : (execute w).trace = pre ++ e :: post)
    (he : isControllerStart e = true) :
    (∃ c, Event.enterPerformUpgrade c ∈ pre) ∧ Event.leavePerformUpgrade none ∈ pre ∧
      ∀ err, Event.leavePerformUpgrade (some err) ∉ pre := by
  have k1 : ∀ r, Path w r →
      precededByB isEnterPerformUpgrade isControllerStart r.trace = true := by
    intro r hp
    cases hp <;> rfl
  have k2 : ∀ r, Path w r → precededByB isUpgradeOk isControllerStart r.trace = true := by
    intro r hp
    cases hp <;> rfl
  have k3 : ∀ r, Path w r → (r.trace.all (fun x => !isUpgradeFailed x) ||
      r.trace.all (fun x => !isControllerStart x)) = true := by
    intro r hp
    cases hp <;> rfl
  obtain ⟨x, hx, hpx⟩ := precededByB_sound _ _ _ (k1 _ (execute_path w)) pre e post hsplit he
  obtain ⟨y, hy, hpy⟩ := precededByB_sound _ _ _ (k2 _ (execute_path w)) pre e post hsplit he
  obtain ⟨c, rfl⟩ := isEnterPerformUpgrade_eq x hpx
  have hy2 := isUpgradeOk_eq y hpy
  subst hy2
  refine ⟨⟨c, hx⟩, hy, ?_⟩
  intro err herr
  have h3 := k3 _ (execute_path w)
  rw [Bool.or_eq_true, List.all_eq_true, List.all_eq_true, hsplit] at h3
  rcases h3 with h3 | h3
  · have := h3 _ (List.mem_append_left _ herr)
    simp [isUpgradeFailed] at this
  · have := h3 e (by simp)
    simp [he] at this

/-- C1, witnessed on the execution in which every collaborator succeeds, at the call of
controller.AddToManager. -/
theorem controllers_only_after_successful_upgrade_witness :
    (execute okWorld).trace = (execute okWorld).trace.take 27 ++
        Event.call (Call.addToManager { id := 2 }) none :: (execute okWorld).trace.drop 28 ∧
      isControllerStart (Event.call (Call.addToManager { id := 2 }) none) = true ∧
      ((∃ c, Event.enterPerformUpgrade c ∈ (execute okWorld).trace.take 27) ∧
        Event.leavePerformUpgrade none ∈ (execute okWorld).trace.take 27 ∧
        ∀ err, Event.leavePerformUpgrade (some err) ∉ (execute okWorld).trace.take 27) :=
  ⟨by rfl, by rfl, controllers_only_after_successful_upgrade okWorld _ _ _ (by rfl) (by rfl)⟩

/-- C3: in every execution of main, leader.Become comes before setupConfig.Install, Install
before the upgrade run, the upgrade run before controller.AddToManager and mgr.Start;
and no cluster-mutating call (Install, the upgrade run and its tasks) comes before
leader.Become has returned. -/
theorem bootstrap_order (w : World) :
    Before isBecome isInstall (execute w).trace ∧
    Before isInstall isPerformUpgrade (execute w).trace ∧
    Before isPerformUpgrade isControllerStart (execute w).trace ∧
    Before isBecome isClusterMutating (execute w).trace := by
  have k : ∀ r, Path w r →
      (precededByB isBecome isInstall r.trace = true ∧
        noneAfterB isBecome isInstall r.trace = true) ∧
      (precededByB isInstall isPerformUpgrade r.trace = true ∧
        noneAfterB isInstall isPerformUpgrade r.trace = true) ∧
      (precededByB isPerformUpgrade isControllerStart r.trace = true ∧
        noneAfterB isPerformUpgrade isControllerStart r.trace = true) ∧
      (precededByB isBecome isClusterMutating r.trace = true ∧
        noneAfterB isBecome isClusterMutating r.trace = true) := by
    intro r hp
    cases hp <;> exact ⟨⟨rfl, rfl⟩, ⟨rfl, rfl⟩, ⟨rfl, rfl⟩, ⟨rfl, rfl⟩⟩
  obtain ⟨h1, h2, h3, h4⟩ := k _ (execute_path w)
  exact ⟨before_of_checks _ _ _ h1.1 h1.2, before_of_checks _ _ _ h2.1 h2.2,
    before_of_checks _ _ _ h3.1 h3.2, before_of_checks _ _ _ h4.1 h4.2⟩

/-- C3, witnessed on the execution in which every collaborator succeeds, at the call of
setupConfig.Install. -/
theorem bootstrap_order_witness :
    (execute okWorld).trace = (execute okWorld).trace.take 13 ++
        Event.call Call.install none :: (execute okWorld).trace.drop 14 ∧
      isInstall (Event.call Call.install none) = true ∧
      ((∃ x ∈ (execute okWorld).trace.take 13, isBecome x = true) ∧
        ∀ x ∈ (execute okWorld).trace.drop 14, isBecome x = false) :=
  ⟨by rfl, by rfl, (bootstrap_order okWorld).1 _ _ _ (by rfl) (by rfl)⟩

/-- C5, refuted as stated: on a help request flag.Parse ends the process with status 0
before any step of the bootstrap has been performed, so status 0 does not tell that the
steps succeeded. -/
theorem exit_zero_without_any_step :
    (execute helpWorld).exitCode = 0 ∧ (execute helpWorld).trace = [Event.flagExit 0] ∧
      ∀ ev ∈ (execute helpWorld).trace, stepOf ev = none := by
  decide

/-- C5, amended: the exit status of main is 1 whenever one of these steps returned an
error: watch namespace, cluster config, readiness marker, manager creation, installation,
scheme registration, client creation, upgrade run, controller registration, manager
start.  It is 0 only when flag.Parse ended the process on a help request before any step,
or when each of these steps was performed and returned no error.  The only other status
is 2, from flag.Parse on a command-line error.  Leadership acquisition is left out: the
statement neither requires nor excludes that leader.Become succeeded. -/
theorem exit_code_reflects_failures (w : World) :
    (∀ ev ∈ (execute w).trace, ∀ s, stepOf ev = some s → s ≠ Step.leadership →
      stepError ev ≠ none → (execute w).exitCode = 1) ∧
    ((execute w).exitCode = 0 →
      (execute w).trace = [Event.flagExit 0] ∨
      ∀ s : Step, s ≠ Step.leadership →
        ∃ ev ∈ (execute w).trace, stepOf ev = some s ∧ stepError ev = none) ∧
    ((execute w).exitCode = 0 ∨ (execute w).exitCode = 1 ∨
      ((execute w).exitCode = 2 ∧ (execute w).trace = [Event.flagExit 2])) := by
  have k : ∀ r, Path w r →
      r.exitCode = 1 ∨
      (r.trace.any isFailedStep = false ∧
        ((r.exitCode = 0 ∧ r.trace = [Event.flagExit 0]) ∨
         (r.exitCode = 2 ∧ r.trace = [Event.flagExit 2]) ∨
         (r.exitCode = 0 ∧
           ∀ s : Step, s ≠ Step.leadership → r.trace.any (isStepOk s) = true))) := by
    intro r hp
    cases hp
    case returned =>
      refine Or.inr ⟨rfl, Or.inr (Or.inr ⟨rfl, fun s hs => ?_⟩)⟩
      cases s <;> first | exact absurd rfl hs | rfl
    case flagHelp => exact Or.inr ⟨rfl, Or.inl ⟨rfl, rfl⟩⟩
    case flagUsage => exact Or.inr ⟨rfl, Or.inr (Or.inl ⟨rfl, rfl⟩)⟩
    all_goals exact Or.inl rfl
  have failed : ∀ ev s, stepOf ev = some s → s ≠ Step.leadership → stepError ev ≠ none →
      isFailedStep ev = true := by
    intro ev s hs hne herr
    cases hse : stepError ev with
    | none => exact absurd hse herr
    | some e => cases s <;> simp_all [isFailedStep]
  rcases k _ (execute_path w) with hc | ⟨hnone, hrest⟩
  · refine ⟨fun _ _ _ _ _ _ => hc, ?_, Or.inr (Or.inl hc)⟩
    intro h0
    rw [hc] at h0
    exact absurd h0 (by decide)
  · have first : ∀ ev ∈ (execute w).trace, ∀ s, stepOf ev = some s → s ≠ Step.leadership →
        stepError ev ≠ none → (execute w).exitCode = 1 := by
      intro ev hev s hs hne herr
      exfalso
      have : (execute w).trace.any isFailedStep = true :=
        List.any_eq_true.mpr ⟨ev, hev, failed ev s hs hne herr⟩
      rw [hnone] at this
      exact absurd this (by decide)
    rcases hrest with ⟨hc, ht⟩ | ⟨hc, ht⟩ | ⟨hc, hall⟩
    · exact ⟨first, fun _ => Or.inl ht, Or.inl hc⟩
    · refine ⟨first, ?_, Or.inr (Or.inr ⟨hc, ht⟩)⟩
      intro h0
      rw [hc] at h0
      exact absurd h0 (by decide)
    · refine ⟨first, ?_, Or.inl hc⟩
      intro _
      refine Or.inr (fun s hs => ?_)
      obtain ⟨ev, hev, hok⟩ := List.any_eq_true.mp (hall s hs)
      refine ⟨ev, hev, ?_⟩
      simpa [isStepOk] using hok

/-- C5 as amended, witnessed on an execution in which installation fails and on the
execution in which every collaborator succeeds. -/
theorem exit_code_reflects_failures_witness :
    (execute installFailWorld).exitCode = 1 ∧
      ((execute okWorld).trace = [Event.flagExit 0] ∨
        ∀ s : Step, s ≠ Step.leadership →
          ∃ ev ∈ (execute okWorld).trace, stepOf ev = some s ∧ stepError ev = none) :=
  ⟨(exit_code_reflects_failures installFailWorld).1
      (Event.call Call.install (some "install failed")) (by decide) Step.install (by rfl)
      (by decide) (by decide),
    (exit_code_reflects_failures okWorld).2.1 (by rfl)⟩

/-- C8: when setup.NewInstallSetup or setupConfig.Install returns an error, the
execution ends right there, with the error logged and exit status 1: the upgrade client
is never built, performUpgrade is never entered, and the controllers are neither
registered nor started. -/
theorem install_failure_ends_execution (w : World) (ev : Event)
    (hmem : ev ∈ (execute w).trace) (hinst : isInstallation ev = true)
    (herr : stepError ev ≠ none) :
    (∀ x ∈ (execute w).trace, isUpgradeOrControllers x = false) ∧
    (∃ pre e, (execute w).trace = pre ++ [ev, Event.logError e "", Event.osExit 1] ∧
      stepError ev = some e) ∧
    (execute w).exitCode = 1 := by
  have hf : isFailedInstallation ev = true := by
    cases hse : stepError ev with
    | none => exact absurd hse herr
    | some e => simp [isFailedInstallation, hinst, hse]
  have k : ∀ r, Path w r → ev ∈ r.trace.filter isFailedInstallation →
      r.trace.all (fun x => !isUpgradeOrControllers x) = true ∧
      (∃ pre e, r.trace = pre ++ [ev, Event.logError e "", Event.osExit 1] ∧
        stepError ev = some e) ∧
      r.exitCode = 1 := by
    intro r hp hm
    cases hp
    case setupFail e h =>
      obtain rfl : ev = Event.call (Call.newInstallSetup w.getConfig.1) (some e) :=
        List.mem_singleton.mp hm
      exact ⟨rfl, ⟨pre5 w [], e, rfl, rfl⟩, rfl⟩
    case installFail e h =>
      obtain rfl : ev = Event.call Call.install (some e) := List.mem_singleton.mp hm
      exact ⟨rfl, ⟨pre6 w [], e, rfl, rfl⟩, rfl⟩
    all_goals exact absurd hm (List.not_mem_nil ev)
  obtain ⟨h1, h2, h3⟩ := k _ (execute_path w) (List.mem_filter.mpr ⟨hmem, hf⟩)
  refine ⟨?_, h2, h3⟩
  intro x hx
  simpa using List.all_eq_true.mp h1 x hx

/-- C8, witnessed on an execution in which setupConfig.Install fails. -/
theorem install_failure_ends_execution_witness :
    Event.call Call.install (some "install failed") ∈ (execute installFailWorld).trace ∧
      isInstallation (Event.call Call.install (some "install failed")) = true ∧
      stepError (Event.call Call.install (some "install failed")) ≠ none ∧
      ((∀ x ∈ (execute installFailWorld).trace, isUpgradeOrControllers x = false) ∧
        (∃ pre e, (execute installFailWorld).trace =
            pre ++ [Event.call Call.install (some "install failed"), Event.logError e "",
              Event.osExit 1] ∧
          stepError (Event.call Call.install (some "install failed")) = some e) ∧
        (execute installFailWorld).exitCode = 1) :=
  ⟨by decide, by rfl, by decide,
    install_failure_ends_execution installFailWorld _ (by decide) (by rfl) (by decide)⟩

/-- C9, refuted as stated: on an undefined flag, flag.Parse ends the process with
status 2 and nothing has been logged. -/
theorem usage_exit_is_not_logged :
    (execute usageWorld).exitCode ≠ 0 ∧ (execute usageWorld).trace = [Event.flagExit 2] ∧
      ∀ x ∈ (execute usageWorld).trace, isLogError x = false := by
  decide

/-- C9, amended: an execution that ends with a non-zero status ends in one of three ways.
Through a fatal path of main: the failed step, then a log.Error call carrying the error
that step returned, then os.Exit(1), with nothing in between and no exit before.  Inside
flag.Parse, with status 2 and nothing logged.  Or through the signal handler installed by
signals.SetupSignalHandler, with status 1 on a second signal. -/
theorem fatal_exit_logs_error (w : World) (h : (execute w).exitCode ≠ 0) :
    (∃ pre step e msg,
      (execute w).trace = pre ++ [step, Event.logError e msg, Event.osExit 1] ∧
      (stepOf step).isSome = true ∧ stepError step = some e ∧
      (∀ x ∈ pre, isExit x = false) ∧ (execute w).exitCode = 1) ∨
    ((execute w).trace = [Event.flagExit 2] ∧ (execute w).exitCode = 2) ∨
    (∃ pre, (execute w).trace = pre ++ [Event.signalExit] ∧
      Event.call Call.setupSignalHandler none ∈ pre ∧
      (∀ x ∈ pre, isExit x = false) ∧ (execute w).exitCode = 1) := by
  have k : ∀ r, Path w r → r.exitCode ≠ 0 →
      (∃ pre step e msg, r.trace = pre ++ [step, Event.logError e msg, Event.osExit 1] ∧
        (stepOf step).isSome = true ∧ stepError step = some e ∧
        pre.all (fun x => !isExit x) = true ∧ r.exitCode = 1) ∨
      (r.trace = [Event.flagExit 2] ∧ r.exitCode = 2) ∨
      (∃ pre, r.trace = pre ++ [Event.signalExit] ∧
        pre.any (fun x => decide (x = Event.call Call.setupSignalHandler none)) = true ∧
        pre.all (fun x => !isExit x) = true ∧ r.exitCode = 1) := by
    intro r hp hne
    cases hp
    case nsFail e h => exact Or.inl ⟨pre1 w [], _, e, _, rfl, rfl, rfl, rfl, rfl⟩
    case cfgFail e h => exact Or.inl ⟨pre2 w [], _, e, _, rfl, rfl, rfl, rfl, rfl⟩
    case setFail e h => exact Or.inl ⟨pre3 w [], _, e, _, rfl, rfl, rfl, rfl, rfl⟩
    case mgrFail e h => exact Or.inl ⟨pre4 w [], _, e, _, rfl, rfl, rfl, rfl, rfl⟩
    case setupFail e h => exact Or.inl ⟨pre5 w [], _, e, _, rfl, rfl, rfl, rfl, rfl⟩
    case installFail e h => exact Or.inl ⟨pre6 w [], _, e, _, rfl, rfl, rfl, rfl, rfl⟩
    case schemeFail e h => exact Or.inl ⟨pre7 w [], _, e, _, rfl, rfl, rfl, rfl, rfl⟩
    case clientFail e h => exact Or.inl ⟨pre8 w [], _, e, _, rfl, rfl, rfl, rfl, rfl⟩
    case task1Fail e h =>
      exact Or.inl ⟨pre9 w [Event.call (Call.taskApply (task1 w.clientNew.1)) (some e),
        Event.leaveRunUpgrade (some e)], _, e, _, rfl, rfl, rfl, rfl, rfl⟩
    case task2Fail e h1 h =>
      exact Or.inl ⟨pre10 w [Event.call (Call.taskApply (task2 w.clientNew.1)) (some e),
        Event.leaveRunUpgrade (some e)], _, e, _, rfl, rfl, rfl, rfl, rfl⟩
    case addFail e h1 h => exact Or.inl ⟨pre11 w [], _, e, _, rfl, rfl, rfl, rfl, rfl⟩
    case startFail e h1 h => exact Or.inl ⟨pre12 w [], _, e, _, rfl, rfl, rfl, rfl, rfl⟩
    case returned h1 h => exact absurd rfl hne
    case flagHelp h => exact absurd rfl hne
    case flagUsage h => exact Or.inr (Or.inl ⟨rfl, rfl⟩)
    case sigBeforeStart hs h1 => exact Or.inr (Or.inr ⟨pre12 w [], rfl, rfl, rfl, rfl⟩)
    case sigAfterStartErr e hs h1 h =>
      exact Or.inr (Or.inr ⟨pre12 w [Event.call (Call.mgrStart w.managerNew.1) (some e)],
        rfl, rfl, rfl, rfl⟩)
    case sigAfterStartOk hs h1 h =>
      exact Or.inr (Or.inr ⟨pre12 w [Event.call (Call.mgrStart w.managerNew.1) none],
        rfl, rfl, rfl, rfl⟩)
    case sigAfterLog e hs h1 h =>
      exact Or.inr (Or.inr ⟨pre12 w [Event.call (Call.mgrStart w.managerNew.1) (some e),
        Event.logError e "manager exited non-zero"], rfl, rfl, rfl, rfl⟩)
    case sigAfterUnset hs h1 h =>
      exact Or.inr (Or.inr ⟨pre12 w [Event.call (Call.mgrStart w.managerNew.1) none,
        Event.call Call.readyUnset w.readyUnset], rfl, rfl, rfl, rfl⟩)
  rcases k _ (execute_path w) h with ⟨pre, step, e, msg, h1, h2, h3, h4, h5⟩ | h2 |
    ⟨pre, h1, h2, h3, h4⟩
  · refine Or.inl ⟨pre, step, e, msg, h1, h2, h3, ?_, h5⟩
    intro x hx
    simpa using List.all_eq_true.mp h4 x hx
  · exact Or.inr (Or.inl h2)
  · refine Or.inr (Or.inr ⟨pre, h1, ?_, ?_, h4⟩)
    · obtain ⟨x, hx, hxe⟩ := List.any_eq_true.mp h2
      have := of_decide_eq_true hxe
      subst this
      exact hx
    · intro x hx
      simpa using List.all_eq_true.mp h3 x hx

/-- C9 as amended, witnessed on an execution in which setupConfig.Install fails. -/
theorem fatal_exit_logs_error_witness :
    (execute installFailWorld).exitCode ≠ 0 ∧
      ((∃ pre step e msg,
        (execute installFailWorld).trace = pre ++ [step, Event.logError e msg, Event.osExit 1] ∧
        (stepOf step).isSome = true ∧ stepError step = some e ∧
        (∀ x ∈ pre, isExit x = false) ∧ (execute installFailWorld).exitCode = 1) ∨
      ((execute installFailWorld).trace = [Event.flagExit 2] ∧
        (execute installFailWorld).exitCode = 2) ∨
      (∃ pre, (execute installFailWorld).trace = pre ++ [Event.signalExit] ∧
        Event.call Call.setupSignalHandler none ∈ pre ∧
        (∀ x ∈ pre, isExit x = false) ∧ (execute installFailWorld).exitCode = 1)) :=
  ⟨by decide, fatal_exit_logs_error installFailWorld (by decide)⟩

/-- C10: whenever main calls manager.New, the SyncPeriod option it passes is the constant
ReconciliationInterval, which is 5 seconds, that is 5 * 10^9 nanoseconds. -/
theorem sync_period_is_five_seconds (w : World) (cfg : Config) (opts : Options)
    (err : Option Error)
    (h : Event.call (Call.managerNew cfg opts) err ∈ (execute w).trace) :
    opts.SyncPeriod = some ReconciliationInterval ∧ ReconciliationInterval = 5 * Second ∧
      Second = 10 ^ 9 ∧ ReconciliationInterval = 5 * 10 ^ 9 := by
  have k : ∀ r, Path w r → r.trace.all syncPeriodOk = true := by
    intro r hp
    cases hp <;> rfl
  have := List.all_eq_true.mp (k _ (execute_path w)) _ h
  refine ⟨?_, rfl, by decide, by decide⟩
  simpa [syncPeriodOk] using this

/-- C10, witnessed on the execution in which every collaborator succeeds. -/
theorem sync_period_is_five_seconds_witness :
    Event.call (Call.managerNew { id := 1 }
        { Namespace := "openebs", SyncPeriod := some 5000000000 }) none ∈
        (execute okWorld).trace ∧
      (some (5000000000 : Duration) = some ReconciliationInterval ∧
        ReconciliationInterval = 5 * Second ∧ Second = 10 ^ 9 ∧
        ReconciliationInterval = 5 * 10 ^ 9) :=
  ⟨by decide, sync_period_is_five_seconds okWorld { id := 1 }
    { Namespace := "openebs", SyncPeriod := some 5000000000 } none (by decide)⟩

/-- C7: the upgrade run is fail-fast.  When the apply of the 0.4.0 to 0.4.1 task fails,
performUpgrade returns that very error and the 0.4.1 to 0.4.2 task is not applied; when the
first succeeds and the second fails, performUpgrade returns the second task's error; when
both succeed it returns nil.  In main, a failed first task is followed by the return of
performUpgrade with that error, log.Error with it, and os.Exit(1). -/
theorem performUpgrade_fail_fast (w : World) (c : Client) (d : List Deferred) :
    (∀ e, w.applyTask (task1 c) = some e →
      ∃ evs, performUpgrade w c d = Res.ret (some e) d evs ∧
        Event.call (Call.taskApply (task1 c)) (some e) ∈ evs ∧
        ∀ r, Event.call (Call.taskApply (task2 c)) r ∉ evs) ∧
    (∀ e, w.applyTask (task1 c) = none → w.applyTask (task2 c) = some e →
      ∃ evs, performUpgrade w c d = Res.ret (some e) d evs) ∧
    (w.applyTask (task1 c) = none → w.applyTask (task2 c) = none →
      ∃ evs, performUpgrade w c d = Res.ret none d evs ∧
        Event.call (Call.taskApply (task1 c)) none ∈ evs ∧
        Event.call (Call.taskApply (task2 c)) none ∈ evs) ∧
    (∀ e, Event.call (Call.taskApply (task1 c)) (some e) ∈ (execute w).trace →
      (∀ r, Event.call (Call.taskApply (task2 c)) r ∉ (execute w).trace) ∧
      ∃ pre, (execute w).trace = pre ++ [Event.leavePerformUpgrade (some e),
        Event.logError e "Upgrade failed", Event.osExit 1]) := by
  refine ⟨?_, ?_, ?_, ?_⟩
  · intro e h1
    refine ⟨upgradeStart c [Event.call (Call.taskApply (task1 c)) (some e),
      Event.leaveRunUpgrade (some e), Event.leavePerformUpgrade (some e)], ?_, ?_, ?_⟩
    · simp [performUpgrade, NewUpgradeTask, RunUpgrade, runTasks, bind, Go.bind, pure, Go.pure,
        call, emit, h1]
    · simp
    · simp
  · intro e h1 h2
    refine ⟨upgradeStart c [Event.call (Call.taskApply (task1 c)) none,
      Event.call (Call.taskApply (task2 c)) (some e),
      Event.leaveRunUpgrade (some e), Event.leavePerformUpgrade (some e)], ?_⟩
    simp [performUpgrade, NewUpgradeTask, RunUpgrade, runTasks, bind, Go.bind, pure, Go.pure,
      call, emit, h1, h2]
  · intro h1 h2
    refine ⟨upgradeStart c [Event.call (Call.taskApply (task1 c)) none,
      Event.call (Call.taskApply (task2 c)) none,
      Event.leaveRunUpgrade none, Event.leavePerformUpgrade none], ?_, ?_, ?_⟩
    · simp [performUpgrade, NewUpgradeTask, RunUpgrade, runTasks, bind, Go.bind, pure, Go.pure,
        call, emit, h1, h2]
    · simp
    · simp
  · intro e hmem
    have hf : isFailedApply (Event.call (Call.taskApply (task1 c)) (some e)) = true := rfl
    have k : ∀ r, Path w r →
        Event.call (Call.taskApply (task1 c)) (some e) ∈ r.trace.filter isFailedApply →
        r.trace.all (fun x => !isApplySecond x) = true ∧
        ∃ pre, r.trace = pre ++ [Event.leavePerformUpgrade (some e),
          Event.logError e "Upgrade failed", Event.osExit 1] := by
      intro r hp hm
      cases hp
      case task1Fail e2 h =>
        have heq : Event.call (Call.taskApply (task1 c)) (some e) =
            Event.call (Call.taskApply (task1 w.clientNew.1)) (some e2) :=
          List.mem_singleton.mp hm
        simp only [Event.call.injEq, Option.some.injEq] at heq
        obtain ⟨-, rfl⟩ := heq
        exact ⟨rfl, pre9 w [Event.call (Call.taskApply (task1 w.clientNew.1)) (some e),
          Event.leaveRunUpgrade (some e)], rfl⟩
      case task2Fail e2 h1 h =>
        have heq : Event.call (Call.taskApply (task1 c)) (some e) =
            Event.call (Call.taskApply (task2 w.clientNew.1)) (some e2) :=
          List.mem_singleton.mp hm
        simp at heq
      all_goals exact absurd hm (List.not_mem_nil _)
    obtain ⟨h1, h2⟩ := k _ (execute_path w) (List.mem_filter.mpr ⟨hmem, hf⟩)
    refine ⟨?_, h2⟩
    intro r hr
    have := List.all_eq_true.mp h1 _ hr
    simp [isApplySecond] at this

/-- C7, witnessed on a world in which the first task fails with a write conflict (from an
arbitrary pending-defer list, here the empty one) and on the execution of main in it. -/
theorem performUpgrade_fail_fast_witness :
    (∃ evs, performUpgrade task1FailWorld { id := 3 } [] =
        Res.ret (some "write conflict") [] evs ∧
      Event.call (Call.taskApply (task1 { id := 3 })) (some "write conflict") ∈ evs ∧
      ∀ r, Event.call (Call.taskApply (task2 { id := 3 })) r ∉ evs) ∧
    ((∀ r, Event.call (Call.taskApply (task2 { id := 3 })) r ∉
        (execute task1FailWorld).trace) ∧
      ∃ pre, (execute task1FailWorld).trace =
        pre ++ [Event.leavePerformUpgrade (some "write conflict"),
          Event.logError "write conflict" "Upgrade failed", Event.osExit 1]) :=
  ⟨(performUpgrade_fail_fast task1FailWorld { id := 3 } []).1 "write conflict" (by rfl),
    (performUpgrade_fail_fast task1FailWorld { id := 3 } []).2.2.2 "write conflict"
      (by decide)⟩

/-- C4: the one task list that performUpgrade hands to upgrade.RunUpgrade is, in argument
order, the 0.4.0 to 0.4.1 task followed by the 0.4.1 to 0.4.2 task, and that list is a
valid chain: each task goes to a strictly later version, the tasks ascend, and the
version a task ends at is the version the next one begins at. -/
theorem performUpgrade_chain (w : World) (c : Client) (d : List Deferred) :
    runUpgradeArgs (performUpgrade w c d).trace =
      [[{ pkg := TaskPkg.v040_041, fromVersion := "0.4.0", toVersion := "0.4.1", client := c },
        { pkg := TaskPkg.v041_042, fromVersion := "0.4.1", toVersion := "0.4.2", client := c }]] ∧
    ValidChain
      [{ pkg := TaskPkg.v040_041, fromVersion := "0.4.0", toVersion := "0.4.1", client := c },
        { pkg := TaskPkg.v041_042, fromVersion := "0.4.1", toVersion := "0.4.2", client := c }] := by
  have v1 : versionLt "0.4.0" "0.4.1" = true := by decide
  have v2 : versionLt "0.4.1" "0.4.2" = true := by decide
  refine ⟨?_, ?_⟩
  · rcases h1 : w.applyTask (task1 c) with _ | e1
    · rcases h2 : w.applyTask (task2 c) with _ | e2 <;>
        simp [performUpgrade, NewUpgradeTask, RunUpgrade, runTasks, bind, Go.bind, pure,
          Go.pure, call, emit, h1, h2, Res.trace, runUpgradeArgs]
    · simp [performUpgrade, NewUpgradeTask, RunUpgrade, runTasks, bind, Go.bind, pure,
        Go.pure, call, emit, h1, Res.trace, runUpgradeArgs]
  · simp [ValidChain, v1, v2]

/-- C2, on a failing input: leader.Become returns an error and every other collaborator
succeeds.  The execution goes on to install, run the upgrade, register and start the
controllers, and ends with status 0: the error of leader.Become is dropped. -/
theorem leader_failure_is_not_fatal :
    Event.call (Call.leaderBecome "node-disk-manager-lock") (some "leader election failed") ∈
      (execute becomeFailWorld).trace ∧
    Event.call Call.install none ∈ (execute becomeFailWorld).trace ∧
    Event.leavePerformUpgrade none ∈ (execute becomeFailWorld).trace ∧
    Event.call (Call.addToManager { id := 2 }) none ∈ (execute becomeFailWorld).trace ∧
    Event.call (Call.mgrStart { id := 2 }) none ∈ (execute becomeFailWorld).trace ∧
    (∀ x ∈ (execute becomeFailWorld).trace, isExit x = false) ∧
    (execute becomeFailWorld).exitCode = 0 := by
  decide

/-- C6, on a failing input: r.Set succeeds and manager.New then fails.  The execution ends
through os.Exit(1) and r.Unset is never called, although it was deferred; on the normal
return of main (every collaborator succeeds) it is called. -/
theorem readiness_marker_kept_on_fatal_exit :
    Event.call Call.readySet none ∈ (execute mgrFailWorld).trace ∧
    (∀ x ∈ (execute mgrFailWorld).trace, isUnset x = false) ∧
    Event.osExit 1 ∈ (execute mgrFailWorld).trace ∧
    (execute mgrFailWorld).exitCode = 1 ∧
    Event.call Call.readyUnset none ∈ (execute okWorld).trace := by
  decide

/-! ## Supplementary facts -/

/-- In no execution is r.Unset called together with an os.Exit of main: the fatal paths
skip the deferred call. -/
theorem unset_skipped_by_os_exit (w : World) (c : Int)
    (h : Event.osExit c ∈ (execute w).trace) :
    ∀ x ∈ (execute w).trace, isUnset x = false := by
  have k : ∀ r, Path w r →
      (r.trace.any (fun x => decide (x = Event.osExit c)) = false ∨
        r.trace.all (fun x => !isUnset x) = true) := by
    intro r hp
    cases hp
    case returned => exact Or.inl rfl
    case sigAfterUnset => exact Or.inl rfl
    all_goals exact Or.inr rfl
  rcases k _ (execute_path w) with h1 | h1
  · have : (execute w).trace.any (fun x => decide (x = Event.osExit c)) = true :=
      List.any_eq_true.mpr ⟨_, h, by simp⟩
    rw [h1] at this
    exact absurd this (by decide)
  · intro x hx
    simpa using List.all_eq_true.mp h1 x hx

/-- When main returns normally (status 0 after a parsed command line), r.Unset has been
called. -/
theorem unset_on_normal_return (w : World) (h : (execute w).exitCode = 0)
    (hf : w.flagParse = FlagOutcome.parsed) :
    ∃ x ∈ (execute w).trace, isUnset x = true := by
  have k : ∀ r, Path w r → r.exitCode = 0 → r.trace.any isUnset = true := by
    intro r hp h0
    cases hp
    case returned => rfl
    case flagHelp h => simp [hf] at h
    all_goals simp at h0
  exact List.any_eq_true.mp (k _ (execute_path w) h)

/-- A second signal while mgr.Start is shutting down ends the process with status 1 and
nothing is logged. -/
theorem signal_exit_is_not_logged :
    (execute signalWorld).exitCode = 1 ∧ Event.signalExit ∈ (execute signalWorld).trace ∧
      ∀ x ∈ (execute signalWorld).trace, isLogError x = false := by
  decide

/-- Whatever error leader.Become returns, when the command line parses, no second signal
arrives and every checked step succeeds, the controllers are registered and started and
main returns normally. -/
theorem leader_error_dropped (w : World) (hf : w.flagParse = FlagOutcome.parsed)
    (hsig : w.secondSignal = none) (h1 : w.getWatchNamespace.2 = none)
    (h2 : w.getConfig.2 = none) (h3 : w.readySet = none) (h4 : w.managerNew.2 = none)
    (h5 : w.newInstallSetup = none) (h6 : w.install = none) (h7 : w.addToScheme = none)
    (h8 : w.clientNew.2 = none) (h9 : w.applyTask (task1 w.clientNew.1) = none)
    (h10 : w.applyTask (task2 w.clientNew.1) = none) (h11 : w.addToManager = none)
    (h12 : w.mgrStart = none) :
    Event.call (Call.leaderBecome "node-disk-manager-lock") w.leaderBecome ∈
      (execute w).trace ∧
    Event.call (Call.addToManager w.managerNew.1) none ∈ (execute w).trace ∧
    Event.call (Call.mgrStart w.managerNew.1) none ∈ (execute w).trace ∧
    (execute w).exitCode = 0 := by
  have k : ∀ r, Path w r →
      Event.call (Call.leaderBecome "node-disk-manager-lock") w.leaderBecome ∈ r.trace ∧
      Event.call (Call.addToManager w.managerNew.1) none ∈ r.trace ∧
      Event.call (Call.mgrStart w.managerNew.1) none ∈ r.trace ∧ r.exitCode = 0 := by
    intro r hp
    cases hp
    case returned => simp
    all_goals simp_all
  exact k _ (execute_path w)

end NDM
